import Mathlib

/-!
Verification of the hyperliquid-monitor frontend.

Part 1 embeds the formatting utilities of src/frontend/src/utils/format.js
together with the JavaScript number coercion they rely on (Number(value),
Number.isNaN, and the en-US Intl.NumberFormat rendering with grouping and
minimum/maximum fraction digits).

Part 2 embeds the wallet data synchronization engine of
src/frontend/src/hooks/useWalletData.js as a transition system: the React
state cells are an explicit record, and the asynchronous callbacks
(loadWallets resolution, loadData start and settlement, the setInterval
timer, the exposed setter and refresh) are events of an explicit step
function. An async JavaScript function runs synchronously between awaits,
so each phase of loadData is one atomic step; in-flight fetches are the
pending list, and a settle event may arrive in any order.
-/

/-- Decimal number: the value m / 10 ^ e. The finite JavaScript numbers
reaching the formatters all originate from decimal literals or JSON, so a
decimal mantissa/exponent pair represents them exactly and keeps every
arithmetic step on integers. -/
structure Dec where
  m : ℤ
  e : ℕ
deriving DecidableEq

/-- Model of a JavaScript number: NaN, the two infinities, or a finite
decimal value. -/
inductive JSNum where
  | nan
  | inf
  | ninf
  | finite (d : Dec)
deriving DecidableEq

/-- Model of the JavaScript values the formatters receive: null, undefined,
a number, or a string. -/
inductive JSVal where
  | jsNull
  | undef
  | number (n : JSNum)
  | str (s : String)
deriving DecidableEq

/-- Decimal digit character for a digit value below ten. -/
def digitChar (d : ℕ) : Char := Char.ofNat (48 + d)

/-- Decimal digit characters of a natural number, most significant first;
fuel-driven so the kernel can evaluate it (fuel n + 1 always suffices). -/
def natDigitsAux : ℕ → ℕ → List Char
  | 0, _ => []
  | fuel + 1, n =>
    if n < 10 then [digitChar n]
    else natDigitsAux fuel (n / 10) ++ [digitChar (n % 10)]

/-- Decimal digit characters of a natural number, most significant first. -/
def natDigits (n : ℕ) : List Char := natDigitsAux (n + 1) n

/-- Walk the least-significant-first digits inserting a comma after every
third digit that is followed by more digits (en-US grouping). -/
def groupAux : List Char → ℕ → List Char
  | [], _ => []
  | c :: rest, k =>
    c :: (if k = 2 ∧ rest ≠ [] then ',' :: groupAux rest 0 else groupAux rest (k + 1))

/-- Group a most-significant-first digit list in threes with commas. -/
def groupTriples (ds : List Char) : List Char := (groupAux ds.reverse 0).reverse

/-- Pad a digit list with leading zero characters up to length k. -/
def padLeft (k : ℕ) (ds : List Char) : List Char :=
  List.replicate (k - ds.length) '0' ++ ds

/-- Drop leading zero characters of a reversed fraction-digit list while
more than minLen characters remain (trailing-zero trimming down to the
minimum fraction digits). -/
def trimRev (minLen : ℕ) : List Char → List Char
  | [] => []
  | c :: rest =>
    if c = '0' ∧ minLen < rest.length + 1 then trimRev minLen rest else c :: rest

/-- Rendering of an en-US Intl.NumberFormat with the given minimum and
maximum fraction digits: sign, integer part grouped in threes, fraction
part rounded half-away-from-zero to maxFD digits and trimmed of trailing
zeros down to minFD digits (omitted entirely when empty). NaN renders as
NaN and the infinities as the infinity sign. For a finite d the scaled
value is the half-away-from-zero rounding of (absolute value) * 10^maxFD,
computed as a floor division on naturals. -/
def finiteRender (minFD maxFD : ℕ) (d : Dec) : List Char :=
  let scaled : ℕ := (2 * d.m.natAbs * 10 ^ maxFD + 10 ^ d.e) / (2 * 10 ^ d.e)
  let ipChars := groupTriples (natDigits (scaled / 10 ^ maxFD))
  let fracC := (trimRev minFD ((padLeft maxFD (natDigits (scaled % 10 ^ maxFD))).reverse)).reverse
  (if d.m < 0 then ['-'] else []) ++ ipChars ++ if fracC = [] then [] else '.' :: fracC

/-- Rendering of an en-US Intl.NumberFormat with the given minimum and
maximum fraction digits. NaN renders as NaN and the infinities as the
infinity sign. -/
def intlFormat (minFD maxFD : ℕ) (n : JSNum) : String :=
  match n with
  | .nan => "NaN"
  | .inf => "∞"
  | .ninf => "-∞"
  | .finite d => String.mk (finiteRender minFD maxFD d)

/-- Digit value of a decimal digit character, none otherwise. -/
def digitVal (c : Char) : Option ℕ :=
  if 48 ≤ c.toNat ∧ c.toNat ≤ 57 then some (c.toNat - 48) else none

/-- Split a character list into its longest decimal-digit prefix (as digit
values) and the remainder. -/
def takeDigits : List Char → List ℕ × List Char
  | [] => ([], [])
  | c :: rest =>
    match digitVal c with
    | some d =>
      let p := takeDigits rest
      (d :: p.1, p.2)
    | none => ([], c :: rest)

/-- Natural number denoted by a most-significant-first digit-value list. -/
def digitsToNat (ds : List ℕ) : ℕ := ds.foldl (fun a d => a * 10 + d) 0

/-- Parse a decimal exponent suffix: optional sign then at least one digit,
consuming the whole input. -/
def parseExp (cs : List Char) : Option ℤ :=
  let p :=
    match cs with
    | '+' :: r => ((1 : ℤ), r)
    | '-' :: r => ((-1 : ℤ), r)
    | r => ((1 : ℤ), r)
  let d := takeDigits p.2
  if d.1 = [] ∨ d.2 ≠ [] then none else some (p.1 * (digitsToNat d.1 : ℤ))

/-- Apply a decimal exponent to a mantissa m with f fraction digits: the
value m / 10^f * 10^ex as a decimal pair. -/
def applyExp (m : ℤ) (f : ℕ) (ex : ℤ) : Dec :=
  if 0 ≤ ex - (f : ℤ) then ⟨m * 10 ^ (ex - (f : ℤ)).toNat, 0⟩ else ⟨m, ((f : ℤ) - ex).toNat⟩

/-- Parse an unsigned JavaScript decimal literal: digits with an optional
fraction (at least one digit on one side of the dot) and an optional
e/E exponent, consuming the whole input. -/
def parseDecimal (cs : List Char) : Option Dec :=
  let ip := takeDigits cs
  let fp :=
    match ip.2 with
    | '.' :: r => takeDigits r
    | r => ([], r)
  if ip.1 = [] ∧ fp.1 = [] then none
  else
    let m : ℤ := ((digitsToNat ip.1 * 10 ^ fp.1.length + digitsToNat fp.1 : ℕ) : ℤ)
    match fp.2 with
    | [] => some ⟨m, fp.1.length⟩
    | 'e' :: r => (parseExp r).map (applyExp m fp.1.length)
    | 'E' :: r => (parseExp r).map (applyExp m fp.1.length)
    | _ => none

/-- Whitespace characters stripped by the string-to-number coercion. -/
def isSpaceChar (c : Char) : Bool := c = ' ' ∨ c = '\t' ∨ c = '\n' ∨ c = '\r'

/-- Strip leading and trailing whitespace from a character list. -/
def trimChars (cs : List Char) : List Char :=
  ((cs.dropWhile isSpaceChar).reverse.dropWhile isSpaceChar).reverse

/-- JavaScript Number(string) on the literal forms used here: the trimmed
empty string is zero, signed Infinity is infinite, a signed decimal literal
is its value, anything else is NaN. -/
def parseNumber (s : String) : JSNum :=
  let t := trimChars s.data
  if t = [] then .finite ⟨0, 0⟩
  else
    let sb :=
      match t with
      | '+' :: r => (false, r)
      | '-' :: r => (true, r)
      | r => (false, r)
    if sb.2 = ['I', 'n', 'f', 'i', 'n', 'i', 't', 'y'] then (if sb.1 then .ninf else .inf)
    else
      match parseDecimal sb.2 with
      | some d => .finite (if sb.1 then ⟨-d.m, d.e⟩ else d)
      | none => .nan

/-- JavaScript Number(value) coercion on the modelled values: null is zero,
undefined is NaN, numbers pass through, strings are parsed. -/
def toNumber : JSVal → JSNum
  | .jsNull => .finite ⟨0, 0⟩
  | .undef => .nan
  | .number n => n
  | .str s => parseNumber s

/-- Whether a modelled JavaScript number is finite. -/
def isFiniteNum : JSNum → Bool
  | .finite _ => true
  | _ => false

/-- Embedding of formatCurrency from src/frontend/src/utils/format.js:
N/A when the value is null or undefined or its numeric coercion is NaN,
otherwise a dollar sign followed by the 2/2-fraction-digit rendering. -/
def formatCurrency (v : JSVal) : String :=
  if v = .jsNull ∨ v = .undef ∨ toNumber v = .nan then "N/A"
  else "$" ++ intlFormat 2 2 (toNumber v)

/-- Fraction-digit options accepted by formatNumber, each defaulting to 2
when absent (the code spreads the caller options over the 2/2 defaults). -/
structure FormatOptions where
  minimumFractionDigits : Option ℕ := none
  maximumFractionDigits : Option ℕ := none
deriving DecidableEq

/-- Embedding of formatNumber from src/frontend/src/utils/format.js. -/
def formatNumber (v : JSVal) (opts : FormatOptions) : String :=
  if v = .jsNull ∨ v = .undef ∨ toNumber v = .nan then "N/A"
  else
    intlFormat (opts.minimumFractionDigits.getD 2) (opts.maximumFractionDigits.getD 2)
      (toNumber v)

/-- Embedding of formatPrice from src/frontend/src/utils/format.js (2 to 4
fraction digits). -/
def formatPrice (v : JSVal) : String :=
  if v = .jsNull ∨ v = .undef ∨ toNumber v = .nan then "N/A"
  else intlFormat 2 4 (toNumber v)

example : formatCurrency .jsNull = "N/A" := by decide

example : formatCurrency (.number (.finite ⟨12345, 1⟩)) = "$1,234.50" := by decide

example : formatCurrency (.str ("")) = "$0.00" := by decide

example : formatCurrency (.number .inf) = "$∞" := by decide

example : formatPrice (.number (.finite ⟨12345, 5⟩)) = "0.1235" := by decide

example : formatNumber (.number (.finite ⟨1234567891, 3⟩)) {} = "1,234,567.89" := by decide

example : formatCurrency (.str ("12.5")) = "$12.50" := by decide

example : formatCurrency (.str ("abc")) = "N/A" := by decide

example : formatCurrency (.undef) = "N/A" := by decide

example : formatCurrency (.number (.finite ⟨-12345, 1⟩)) = "$-1,234.50" := by decide

/-- Wallet summary response as the engine stores it (stored opaquely by
loadData; the fields mirror the backend contract used by the views). -/
structure Summary where
  equity : ℤ
  positions : List String
deriving DecidableEq

/-- Fills response: the items field may be absent, in which case the code
falls back to the empty list. -/
structure FillsResp where
  items : Option (List String)
deriving DecidableEq

/-- Settled outcome of one poll cycle's awaited Promise.all: both fetches
succeeded, or the combined promise rejected with a message. -/
inductive FetchOutcome where
  | ok (su : Summary) (fi : FillsResp)
  | err (msg : String)
deriving DecidableEq

/-- Result of a single fetch, used to model how Promise.all combines the
summary fetch and the fills fetch. -/
inductive FetchRes (α : Type) where
  | ok (v : α)
  | err (msg : String)
deriving DecidableEq

/-- Promise.all on the pair of fetches issued by loadData: it resolves when
both succeed and otherwise rejects with the message of the fetch that
rejected first in time; summaryRejectsFirst records which rejection came
first when both fail. -/
def combine (sr : FetchRes Summary) (fr : FetchRes FillsResp)
    (summaryRejectsFirst : Bool) : FetchOutcome :=
  match sr, fr with
  | .ok su, .ok fi => .ok su fi
  | .err m, .ok _ => .err m
  | .ok _, .err m => .err m
  | .err m1, .err m2 => .err (if summaryRejectsFirst then m1 else m2)

/-- React state cells of useWalletData, with the useState initial values
wallets = [], selectedWallet and error empty, summary null, fills empty,
loading false. -/
structure EngineState where
  wallets : List String
  selectedWallet : String
  summary : Option Summary
  fills : List String
  loading : Bool
  error : String
deriving DecidableEq

/-- Initial engine state from the useState defaults. -/
def initState : EngineState :=
  { wallets := [], selectedWallet := "", summary := none, fills := [],
    loading := false, error := "" }

/-- Empty-address branch of loadData: resets summary and fills only and
returns before any fetch (loading and error untouched). -/
def loadDataEmpty (s : EngineState) : EngineState :=
  { s with summary := none, fills := [] }

/-- Synchronous prefix of loadData for a non-empty address, up to the
await: set loading, clear error. -/
def loadDataStart (s : EngineState) : EngineState :=
  { s with loading := true, error := "" }

/-- Continuation of loadData after its Promise.all settles: on success
store the summary response and the items field of the fills response (or
the empty list when absent), on failure set error to the message (or the
fallback text when the message is empty). The finally clause clears
loading in both branches. Nothing here consults the current selection:
this is exactly the absence of a generation check in the source. -/
def loadDataSettle (o : FetchOutcome) (s : EngineState) : EngineState :=
  match o with
  | .ok su fi =>
    { s with summary := some su, fills := fi.items.getD [], loading := false }
  | .err m =>
    { s with error := if m = "" then "Failed to load wallet data" else m, loading := false }

/-- Selection reconciliation inside loadWallets: keep the current selection
when it is non-empty and still in the refreshed list, else fall back to the
first entry of the list or the empty string. -/
def reconcile (current : String) (list : List String) : String :=
  if current ≠ "" ∧ current ∈ list then current else list.headD ""

/-- Catch branch of loadWallets: only the error cell is written, with the
fallback text when the failure carries no message. -/
def applyWalletsError (m : String) (s : EngineState) : EngineState :=
  { s with error := if m = "" then "Failed to load wallets" else m }

/-- Poll interval of the hook (REFRESH_INTERVAL, milliseconds). -/
def REFRESH_INTERVAL : ℕ := 15000

/-- Whole-system state: the React cells, the active interval timer of the
selection effect (the wallet captured by its closure and the time the next
tick is due), and the addresses of the in-flight loadData fetches in order
of issue. -/
structure Sys where
  st : EngineState
  timer : Option (String × ℕ)
  pending : List String
deriving DecidableEq

/-- System state on mount. -/
def initSys : Sys := { st := initState, timer := none, pending := [] }

/-- Events of the embedded hook. Times are in milliseconds and only feed
the timer bookkeeping. A settle event carries the index (in order of
issue) of the in-flight fetch that settles, and its outcome. -/
inductive Event where
  | select (t : ℕ) (w : String)
  | settle (i : ℕ) (o : FetchOutcome)
  | tick
  | refresh (t : ℕ)
  | walletsOk (t : ℕ) (resp : Option (List String))
  | walletsErr (m : String)

/-- One step of the embedded hook.

select: the exposed setSelectedWallet plus the selection effect React runs
after it. A value equal to the current selection is a no-op (React bails
out). Otherwise the previous effect cleanup clears the interval; for an
empty value the effect returns early (no fetch, nothing else written), for
a non-empty value loadData starts for it and a fresh interval is
installed.

settle: an in-flight loadData fetch settles and runs its continuation
unconditionally; out-of-range indices are ignored.

tick: the interval fires, starting loadData for the wallet captured by the
interval closure and scheduling the next tick one interval later.

refresh: the exposed refresh() calls loadData(selectedWallet) directly; it
does not touch the interval.

walletsOk: loadWallets resolves; the list (or [] when the wallets field is
absent) replaces the wallet set and the selection is reconciled. When the
reconciled selection differs from the current one the selection effect
re-runs exactly as for select; when it is unchanged the effect does not
re-run.

walletsErr: loadWallets rejects; only the error cell is written. -/
def step (s : Sys) : Event → Sys
  | .select t w =>
    if w = s.st.selectedWallet then s
    else
      let st1 := { s.st with selectedWallet := w }
      if w = "" then { st := st1, timer := none, pending := s.pending }
      else
        { st := loadDataStart st1, timer := some (w, t + REFRESH_INTERVAL),
          pending := s.pending ++ [w] }
  | .settle i o =>
    if i < s.pending.length then
      { st := loadDataSettle o s.st, timer := s.timer, pending := s.pending.eraseIdx i }
    else s
  | .tick =>
    match s.timer with
    | none => s
    | some (w, due) =>
      { st := loadDataStart s.st, timer := some (w, due + REFRESH_INTERVAL),
        pending := s.pending ++ [w] }
  | .refresh _ =>
    if s.st.selectedWallet = "" then { s with st := loadDataEmpty s.st }
    else
      { st := loadDataStart s.st, timer := s.timer,
        pending := s.pending ++ [s.st.selectedWallet] }
  | .walletsOk t resp =>
    let l := resp.getD []
    let newSel := reconcile s.st.selectedWallet l
    let st1 := { s.st with wallets := l, selectedWallet := newSel }
    if newSel = s.st.selectedWallet then { s with st := st1 }
    else if newSel = "" then { st := st1, timer := none, pending := s.pending }
    else
      { st := loadDataStart st1, timer := some (newSel, t + REFRESH_INTERVAL),
        pending := s.pending ++ [newSel] }
  | .walletsErr m => { s with st := applyWalletsError m s.st }

/-- Run a list of events from a system state. -/
def run (s : Sys) (es : List Event) : Sys := es.foldl step s

example :
    (run initSys [.walletsOk 0 (some ["0xA", "0xB"])]).st.selectedWallet = "0xA" := by
  decide

example :
    (run initSys [.select 0 ("0xA"), .settle 0 (.ok ⟨100, []⟩ ⟨some []⟩)]).st =
      { wallets := [], selectedWallet := "0xA", summary := some ⟨100, []⟩,
        fills := [], loading := false, error := "" } := by
  decide

lemma natDigitsAux_ne_nil (f n : ℕ) : natDigitsAux (f + 1) n ≠ [] := by
  simp only [natDigitsAux]
  split <;> simp

lemma natDigits_ne_nil (n : ℕ) : natDigits n ≠ [] := natDigitsAux_ne_nil n n

lemma groupAux_ne_nil (c : Char) (rest : List Char) (k : ℕ) : groupAux (c :: rest) k ≠ [] := by
  simp [groupAux]

lemma groupTriples_ne_nil (ds : List Char) (h : ds ≠ []) : groupTriples ds ≠ [] := by
  unfold groupTriples
  intro hcon
  rw [List.reverse_eq_nil_iff] at hcon
  cases hrev : ds.reverse with
  | nil => exact h (by simpa using congrArg List.reverse hrev)
  | cons c rest => exact groupAux_ne_nil c rest 0 (hrev ▸ hcon)

lemma trimRev_length (k : ℕ) (cs : List Char) : min k cs.length ≤ (trimRev k cs).length := by
  induction cs with
  | nil => simp [trimRev]
  | cons c rest ih =>
    simp only [trimRev]
    split
    · rename_i hcond
      simp only [List.length_cons] at *
      omega
    · simp only [List.length_cons]
      omega

lemma padLeft_length (k : ℕ) (ds : List Char) : (padLeft k ds).length = max k ds.length := by
  simp [padLeft]
  omega

lemma finiteRender_length (minFD maxFD : ℕ) (hmin : 2 ≤ minFD) (hmax : 2 ≤ maxFD)
    (d : Dec) : 4 ≤ (finiteRender minFD maxFD d).length := by
  simp only [finiteRender]
  have hip : 1 ≤ (groupTriples (natDigits
      ((2 * d.m.natAbs * 10 ^ maxFD + 10 ^ d.e) / (2 * 10 ^ d.e) / 10 ^ maxFD))).length := by
    have := groupTriples_ne_nil _ (natDigits_ne_nil
      ((2 * d.m.natAbs * 10 ^ maxFD + 10 ^ d.e) / (2 * 10 ^ d.e) / 10 ^ maxFD))
    exact List.length_pos.mpr this
  have hfrac : 2 ≤ ((trimRev minFD ((padLeft maxFD (natDigits
      ((2 * d.m.natAbs * 10 ^ maxFD + 10 ^ d.e) / (2 * 10 ^ d.e) % 10 ^ maxFD))).reverse)).reverse).length := by
    have h1 := trimRev_length minFD ((padLeft maxFD (natDigits
      ((2 * d.m.natAbs * 10 ^ maxFD + 10 ^ d.e) / (2 * 10 ^ d.e) % 10 ^ maxFD))).reverse)
    have h2 := padLeft_length maxFD (natDigits
      ((2 * d.m.natAbs * 10 ^ maxFD + 10 ^ d.e) / (2 * 10 ^ d.e) % 10 ^ maxFD))
    simp only [List.length_reverse] at *
    omega
  have hfne : (trimRev minFD ((padLeft maxFD (natDigits
      ((2 * d.m.natAbs * 10 ^ maxFD + 10 ^ d.e) / (2 * 10 ^ d.e) % 10 ^ maxFD))).reverse)).reverse ≠ [] := by
    intro hc
    rw [hc] at hfrac
    simp at hfrac
  rw [if_neg hfne]
  simp only [List.length_append, List.length_cons]
  split <;> simp only [List.length_cons, List.length_nil] <;> omega

lemma intlFormat_ne_na (minFD maxFD : ℕ) (hmin : 2 ≤ minFD) (hmax : 2 ≤ maxFD)
    (n : JSNum) (hn : n ≠ .nan) : intlFormat minFD maxFD n ≠ "N/A" := by
  cases n with
  | nan => exact absurd rfl hn
  | inf =>
    show ("∞" : String) ≠ "N/A"
    decide
  | ninf =>
    show ("-∞" : String) ≠ "N/A"
    decide
  | finite d =>
    intro h
    have hlen : (intlFormat minFD maxFD (.finite d)).length = 3 := by rw [h]; rfl
    have h4 := finiteRender_length minFD maxFD hmin hmax d
    have : (intlFormat minFD maxFD (.finite d)).length = (finiteRender minFD maxFD d).length := rfl
    omega

lemma dollar_append_ne_na (s : String) : ("$" ++ s) ≠ "N/A" := by
  intro h
  have hd : '$' :: s.data = ['N', '/', 'A'] := congrArg String.data h
  injection hd with h1 _
  exact absurd h1 (by decide)

/-- Fixture: a mounted system with two wallets and the first selected,
idle (no in-flight fetch), with the poll timer armed. -/
def sysA : Sys :=
  { st := { wallets := ["0xA", "0xB"], selectedWallet := "0xA", summary := none,
            fills := [], loading := false, error := "" },
    timer := some ("0xA", 15000), pending := [] }

/-- Fixture: a system whose selection is absent from the list about to be
delivered by a wallet refresh. -/
def sysC : Sys :=
  { st := { wallets := ["0xC"], selectedWallet := "0xC", summary := none,
            fills := [], loading := false, error := "" },
    timer := some ("0xC", 15000), pending := [] }

/-- Fixture: a system holding fetched data and a standing error. -/
def sysD : Sys :=
  { st := { wallets := ["0xA"], selectedWallet := "0xA", summary := some ⟨100, []⟩,
            fills := ["fillOld"], loading := false, error := "boom" },
    timer := some ("0xA", 15000), pending := [] }

/-- Trace in which the user selects wallet A, switches to wallet B while
the fetch for A is still in flight, B's fetch settles, and then A's stale
fetch settles last. -/
def staleTrace : List Event :=
  [.select 0 ("0xA"), .select 1000 ("0xB"),
   .settle 1 (.ok ⟨200, []⟩ ⟨some ["fillB"]⟩),
   .settle 0 (.ok ⟨100, []⟩ ⟨some ["fillA"]⟩)]

/-- C1: the claim states that a fetch issued for a superseded selection
never mutates shared state after the selection has changed. The source has
no generation check: running the embedded hook on staleTrace, wallet A's
stale fetch settles after the selection moved to B and overwrites summary
and fills with A's data, so the final snapshot shows A's data under B's
selection. This theorem evaluates the code at that failing input,
exhibiting the violation. -/
theorem c1_stale_fetch_mutates_state :
    (run initSys staleTrace).st.selectedWallet = "0xB" ∧
    (run initSys staleTrace).st.summary = some ⟨100, []⟩ ∧
    (run initSys staleTrace).st.fills = ["fillA"] ∧
    (run initSys staleTrace).st.summary ≠ some ⟨200, []⟩ := by
  decide

/-- C2: a poll cycle on a non-empty selection in which both fetches
succeed ends with summary set to the summary response, fills set to the
items field of the fills response (or empty when absent), loading false
and error empty, while wallets, selection, and the timer are untouched.
The writes happen in the single settle step (the JavaScript after the
await runs without suspension points), so no torn intermediate state is
observable between events. -/
theorem c2_success_cycle (s : Sys) (su : Summary) (fi : FillsResp) (t : ℕ)
    (hsel : s.st.selectedWallet ≠ "") (hp : s.pending = []) :
    (run s [.refresh t, .settle 0 (.ok su fi)]).st =
      { s.st with summary := some su, fills := fi.items.getD [],
                  loading := false, error := "" } ∧
    (run s [.refresh t, .settle 0 (.ok su fi)]).timer = s.timer ∧
    (run s [.refresh t, .settle 0 (.ok su fi)]).pending = [] := by
  obtain ⟨⟨w, sel, su0, fi0, lo, er⟩, tm, pd⟩ := s
  simp only at hsel hp
  subst hp
  simp [run, step, hsel, loadDataStart, loadDataSettle]

/-- C2 witness: the success cycle theorem applied to a concrete mounted
system and the responses of the spec scenario. -/
theorem c2_success_cycle_witness :
    (run sysA [.refresh 0, .settle 0 (.ok ⟨100, []⟩ ⟨some []⟩)]).st =
      { sysA.st with summary := some ⟨100, []⟩, fills := [],
                     loading := false, error := "" } ∧
    (run sysA [.refresh 0, .settle 0 (.ok ⟨100, []⟩ ⟨some []⟩)]).timer = sysA.timer ∧
    (run sysA [.refresh 0, .settle 0 (.ok ⟨100, []⟩ ⟨some []⟩)]).pending = [] :=
  c2_success_cycle sysA ⟨100, []⟩ ⟨some []⟩ 0 (by simp [sysA]) (by simp [sysA])

/-- C3: a poll cycle on a non-empty selection whose combined Promise.all
rejects (first rejection wins, as encoded by combine) ends with error set
to that first failing message (when non-empty, as the code falls back to a
generic text for an empty message), loading false, and the summary and
fills values from before the cycle retained. -/
theorem c3_failure_cycle (s : Sys) (sr : FetchRes Summary) (fr : FetchRes FillsResp)
    (b : Bool) (m : String) (t : ℕ)
    (hsel : s.st.selectedWallet ≠ "") (hp : s.pending = [])
    (hc : combine sr fr b = .err m) (hm : m ≠ "") :
    (run s [.refresh t, .settle 0 (combine sr fr b)]).st =
      { s.st with error := m, loading := false } ∧
    (run s [.refresh t, .settle 0 (combine sr fr b)]).st.summary = s.st.summary ∧
    (run s [.refresh t, .settle 0 (combine sr fr b)]).st.fills = s.st.fills := by
  obtain ⟨⟨w, sel, su0, fi0, lo, er⟩, tm, pd⟩ := s
  simp only at hsel hp
  subst hp
  rw [hc]
  simp [run, step, hsel, hm, loadDataStart, loadDataSettle]

/-- C3 witness: the failure cycle theorem applied to a concrete system
where the fills fetch succeeds and the summary fetch rejects first with a
non-empty message. -/
theorem c3_failure_cycle_witness :
    (run sysD [.refresh 0, .settle 0 (combine (.err ("http 500")) (.ok ⟨some []⟩) true)]).st =
      { sysD.st with error := "http 500", loading := false } ∧
    (run sysD [.refresh 0, .settle 0 (combine (.err ("http 500")) (.ok ⟨some []⟩) true)]).st.summary
      = sysD.st.summary ∧
    (run sysD [.refresh 0, .settle 0 (combine (.err ("http 500")) (.ok ⟨some []⟩) true)]).st.fills
      = sysD.st.fills :=
  c3_failure_cycle sysD (.err ("http 500")) (.ok ⟨some []⟩) true ("http 500") 0
    (by simp [sysD]) (by simp [sysD]) rfl (by decide)

lemma step_walletsOk_selected (s : Sys) (t : ℕ) (r : Option (List String)) :
    (step s (.walletsOk t r)).st.selectedWallet =
      reconcile s.st.selectedWallet (r.getD []) := by
  obtain ⟨⟨w, sel, su0, fi0, lo, er⟩, tm, pd⟩ := s
  simp only [step]
  split
  · rfl
  · split
    · rfl
    · simp [loadDataStart]

lemma step_walletsOk_wallets (s : Sys) (t : ℕ) (r : Option (List String)) :
    (step s (.walletsOk t r)).st.wallets = r.getD [] := by
  obtain ⟨⟨w, sel, su0, fi0, lo, er⟩, tm, pd⟩ := s
  simp only [step]
  split
  · rfl
  · split
    · rfl
    · simp [loadDataStart]

/-- C4: on a wallet-list refresh, a non-empty selection that is a member of
the refreshed list is preserved by the reconciliation, and otherwise the
selection becomes the first entry of the refreshed list (the empty string
when the list is empty, which is what List.headD with an empty default
yields). -/
theorem c4_list_refresh_reconciliation :
    (∀ (s : Sys) (l : List String) (t : ℕ),
        s.st.selectedWallet ≠ "" → s.st.selectedWallet ∈ l →
        (step s (.walletsOk t (some l))).st.selectedWallet = s.st.selectedWallet) ∧
    (∀ (s : Sys) (l : List String) (t : ℕ),
        s.st.selectedWallet = "" ∨ s.st.selectedWallet ∉ l →
        (step s (.walletsOk t (some l))).st.selectedWallet = List.headD l ("")) := by
  constructor
  · intro s l t h1 h2
    rw [step_walletsOk_selected]
    simp only [Option.getD_some]
    unfold reconcile
    rw [if_pos ⟨h1, h2⟩]
  · intro s l t h
    rw [step_walletsOk_selected]
    simp only [Option.getD_some]
    unfold reconcile
    rw [if_neg]
    rintro ⟨hne, hmem⟩
    rcases h with h | h
    · exact hne h
    · exact h hmem

/-- C4 witness: a preserved member selection and a dropped non-member
selection, at concrete states and lists. -/
theorem c4_list_refresh_reconciliation_witness :
    (step sysA (.walletsOk 0 (some ["0xA", "0xB"]))).st.selectedWallet =
      sysA.st.selectedWallet ∧
    (step sysC (.walletsOk 0 (some ["0xA", "0xB"]))).st.selectedWallet =
      List.headD ["0xA", "0xB"] ("") :=
  ⟨c4_list_refresh_reconciliation.1 sysA ["0xA", "0xB"] 0 (by simp [sysA]) (by simp [sysA]),
   c4_list_refresh_reconciliation.2 sysC ["0xA", "0xB"] 0 (Or.inr (by simp [sysC]))⟩

/-- C5 (amended): a wallet-list refresh always leaves the selection empty
or a member of the new wallet set, and fetch settlements, timer ticks,
manual refreshes, and failed list fetches change neither the selection nor
the wallet set (so they preserve the membership invariant); the claim as
stated fails only because the exposed setter is passed through without
validation (see the counterexample). -/
theorem c5_engine_mutations_keep_membership :
    (∀ (s : Sys) (t : ℕ) (r : Option (List String)),
        (step s (.walletsOk t r)).st.selectedWallet = "" ∨
        (step s (.walletsOk t r)).st.selectedWallet ∈ (step s (.walletsOk t r)).st.wallets) ∧
    (∀ (s : Sys) (i : ℕ) (o : FetchOutcome),
        (step s (.settle i o)).st.selectedWallet = s.st.selectedWallet ∧
        (step s (.settle i o)).st.wallets = s.st.wallets) ∧
    (∀ s : Sys,
        (step s .tick).st.selectedWallet = s.st.selectedWallet ∧
        (step s .tick).st.wallets = s.st.wallets) ∧
    (∀ (s : Sys) (t : ℕ),
        (step s (.refresh t)).st.selectedWallet = s.st.selectedWallet ∧
        (step s (.refresh t)).st.wallets = s.st.wallets) ∧
    (∀ (s : Sys) (m : String),
        (step s (.walletsErr m)).st.selectedWallet = s.st.selectedWallet ∧
        (step s (.walletsErr m)).st.wallets = s.st.wallets) := by
  refine ⟨?_, ?_, ?_, ?_, ?_⟩
  · intro s t r
    rw [step_walletsOk_selected, step_walletsOk_wallets]
    unfold reconcile
    split
    · rename_i hcase
      exact Or.inr hcase.2
    · generalize r.getD [] = l
      cases l with
      | nil => exact Or.inl rfl
      | cons a tl => exact Or.inr (by simp [List.headD])
  · intro s i o
    obtain ⟨⟨w, sel, su0, fi0, lo, er⟩, tm, pd⟩ := s
    simp only [step]
    split
    · cases o <;> simp [loadDataSettle]
    · exact ⟨rfl, rfl⟩
  · intro s
    obtain ⟨⟨w, sel, su0, fi0, lo, er⟩, tm, pd⟩ := s
    cases tm with
    | none => exact ⟨rfl, rfl⟩
    | some p =>
      obtain ⟨tw, due⟩ := p
      simp [step, loadDataStart]
  · intro s t
    obtain ⟨⟨w, sel, su0, fi0, lo, er⟩, tm, pd⟩ := s
    simp only [step]
    split <;> simp [loadDataEmpty, loadDataStart]
  · intro s m
    obtain ⟨⟨w, sel, su0, fi0, lo, er⟩, tm, pd⟩ := s
    simp [step, applyWalletsError]

/-- C5 counterexample: the exposed setter performs no membership check, so
selecting a wallet outside the list leaves the selection non-empty and not
a member of the wallet set, violating the claimed invariant. -/
theorem c5_setter_counterexample :
    (step sysA (.select 0 ("0xZ"))).st.selectedWallet = "0xZ" ∧
    ("0xZ" ∉ (step sysA (.select 0 ("0xZ"))).st.wallets) ∧
    ("0xZ" : String) ≠ "" := by
  decide

/-- C6 (amended): a manual refresh immediately runs loadData for the
current selection (for a non-empty selection: loading set, error cleared,
a fetch issued) without waiting for the timer, but it leaves the interval
timer exactly as it was: the next automatic cycle stays on the original
schedule instead of moving to fifteen seconds after the refresh. -/
theorem c6_refresh_runs_cycle_timer_untouched (s : Sys) (t : ℕ) :
    (step s (.refresh t)).timer = s.timer ∧
    (step s (.refresh t)).st =
      (if s.st.selectedWallet = "" then loadDataEmpty s.st else loadDataStart s.st) ∧
    (step s (.refresh t)).pending =
      (if s.st.selectedWallet = "" then s.pending
       else s.pending ++ [s.st.selectedWallet]) := by
  obtain ⟨⟨w, sel, su0, fi0, lo, er⟩, tm, pd⟩ := s
  simp only [step]
  split <;> rename_i h <;> simp [h]

/-- C6 counterexample: selecting a wallet at time 0 arms the timer for
time 15000; a manual refresh at time 5000 leaves that deadline at 15000,
whereas the claim requires the next automatic cycle at 20000. -/
theorem c6_timer_counterexample :
    (run initSys [.select 0 ("0xA"), .refresh 5000]).timer = some ("0xA", 15000) ∧
    (15000 : ℕ) ≠ 5000 + REFRESH_INTERVAL := by
  decide

/-- C7 (amended): when the selection becomes empty the engine starts no
fetch and cancels the poll timer, but it does not reset the snapshot:
summary, fills, loading and error all keep their previous values (the
selection effect returns early on an empty selection, and only a direct
loadData call with an empty address would reset summary and fills). -/
theorem c7_clear_selection_no_fetch_no_reset (s : Sys) (t : ℕ)
    (h : s.st.selectedWallet ≠ "") :
    (step s (.select t (""))).st.selectedWallet = "" ∧
    (step s (.select t (""))).st.summary = s.st.summary ∧
    (step s (.select t (""))).st.fills = s.st.fills ∧
    (step s (.select t (""))).st.loading = s.st.loading ∧
    (step s (.select t (""))).st.error = s.st.error ∧
    (step s (.select t (""))).timer = none ∧
    (step s (.select t (""))).pending = s.pending := by
  obtain ⟨⟨w, sel, su0, fi0, lo, er⟩, tm, pd⟩ := s
  simp only at h
  simp only [step]
  rw [if_neg (fun hh => h hh.symm)]
  simp

/-- C7 witness: clearing the selection of a concrete mounted system. -/
theorem c7_clear_selection_witness :
    (step sysA (.select 0 (""))).st.selectedWallet = "" ∧
    (step sysA (.select 0 (""))).st.summary = sysA.st.summary ∧
    (step sysA (.select 0 (""))).st.fills = sysA.st.fills ∧
    (step sysA (.select 0 (""))).st.loading = sysA.st.loading ∧
    (step sysA (.select 0 (""))).st.error = sysA.st.error ∧
    (step sysA (.select 0 (""))).timer = none ∧
    (step sysA (.select 0 (""))).pending = sysA.pending :=
  c7_clear_selection_no_fetch_no_reset sysA 0 (by simp [sysA])

/-- C7 counterexample: on a system holding data and an error, clearing the
selection leaves summary, fills and error untouched, contradicting the
claimed immediate reset of the snapshot fields to their empty defaults. -/
theorem c7_no_reset_counterexample :
    (step sysD (.select 0 (""))).st.summary = some ⟨100, []⟩ ∧
    (step sysD (.select 0 (""))).st.summary ≠ none ∧
    (step sysD (.select 0 (""))).st.fills ≠ [] ∧
    (step sysD (.select 0 (""))).st.error = "boom" := by
  decide

/-- C9: when the wallet-list fetch fails, the engine writes only the error
cell (the failure message, or the fallback text when the message is
empty); the wallet set, the selection, the snapshot data, the timer and
the in-flight fetches are all exactly as before. -/
theorem c9_wallets_failure_frame (s : Sys) (m : String) :
    (step s (.walletsErr m)).st.wallets = s.st.wallets ∧
    (step s (.walletsErr m)).st.selectedWallet = s.st.selectedWallet ∧
    (step s (.walletsErr m)).st.summary = s.st.summary ∧
    (step s (.walletsErr m)).st.fills = s.st.fills ∧
    (step s (.walletsErr m)).st.loading = s.st.loading ∧
    (step s (.walletsErr m)).timer = s.timer ∧
    (step s (.walletsErr m)).pending = s.pending ∧
    (step s (.walletsErr m)).st.error =
      (if m = "" then "Failed to load wallets" else m) := by
  obtain ⟨⟨w, sel, su0, fi0, lo, er⟩, tm, pd⟩ := s
  simp [step, applyWalletsError]

/-- C8 (amended): formatCurrency returns N/A exactly when the input is
null or undefined or its numeric coercion is NaN (the code tests
Number.isNaN, not Number.isFinite, so the infinities are formatted rather
than mapped to N/A — see the counterexample); in particular
formatCurrency(null) is N/A and formatCurrency(1234.5) is a grouped
two-decimal dollar rendering. The embedding is total, so the function
cannot throw. -/
theorem c8_formatCurrency_na_guard :
    (∀ v : JSVal,
        formatCurrency v = "N/A" ↔ (v = .jsNull ∨ v = .undef ∨ toNumber v = .nan)) ∧
    formatCurrency .jsNull = "N/A" ∧
    formatCurrency (.number (.finite ⟨12345, 1⟩)) = "$1,234.50" := by
  refine ⟨fun v => ⟨?_, ?_⟩, by decide, by decide⟩
  · intro h
    by_contra hg
    unfold formatCurrency at h
    rw [if_neg hg] at h
    exact dollar_append_ne_na _ h
  · intro hg
    unfold formatCurrency
    rw [if_pos hg]

/-- C8 counterexample: positive Infinity is not a finite number, yet
formatCurrency renders it as a dollar-prefixed infinity sign instead of
the claimed N/A, so the claimed equivalence with finiteness fails. -/
theorem c8_infinity_counterexample :
    formatCurrency (.number .inf) = "$∞" ∧
    isFiniteNum (toNumber (.number .inf)) = false ∧
    formatCurrency (.number .inf) ≠ "N/A" := by
  decide

/-- C10: every string whose numeric coercion is not NaN passes the N/A
guard of formatCurrency, formatNumber (default options) and formatPrice,
which then render the coerced number; in particular the empty string
coerces to zero, so formatCurrency on it yields a zero dollar rendering
rather than N/A. -/
theorem c10_string_inputs :
    (∀ s : String, toNumber (.str s) ≠ .nan →
        formatCurrency (.str s) = "$" ++ intlFormat 2 2 (toNumber (.str s)) ∧
        formatCurrency (.str s) ≠ "N/A" ∧
        formatNumber (.str s) {} = intlFormat 2 2 (toNumber (.str s)) ∧
        formatNumber (.str s) {} ≠ "N/A" ∧
        formatPrice (.str s) = intlFormat 2 4 (toNumber (.str s)) ∧
        formatPrice (.str s) ≠ "N/A") ∧
    formatCurrency (.str ("")) = "$0.00" := by
  refine ⟨fun s hs => ?_, by decide⟩
  have hg : ¬((JSVal.str s) = .jsNull ∨ (JSVal.str s) = .undef ∨
      toNumber (.str s) = .nan) := by
    push_neg
    exact ⟨by simp, by simp, hs⟩
  refine ⟨?_, ?_, ?_, ?_, ?_, ?_⟩
  · unfold formatCurrency
    rw [if_neg hg]
  · unfold formatCurrency
    rw [if_neg hg]
    exact dollar_append_ne_na _
  · unfold formatNumber
    rw [if_neg hg]
    rfl
  · unfold formatNumber
    rw [if_neg hg]
    exact intlFormat_ne_na 2 2 le_rfl le_rfl _ hs
  · unfold formatPrice
    rw [if_neg hg]
  · unfold formatPrice
    rw [if_neg hg]
    exact intlFormat_ne_na 2 4 le_rfl (by omega) _ hs

/-- C10 witness: the empty string coerces to zero (not NaN) and the
formatters accept it. -/
theorem c10_string_inputs_witness :
    toNumber (.str ("")) ≠ .nan ∧ formatNumber (.str ("")) {} ≠ "N/A" :=
  ⟨by decide, (c10_string_inputs.1 ("") (by decide)).2.2.2.1⟩
